import Mathlib

/-!
Verification of the pyTracer transform subsystem (src/core/transform.py and
src/core/quaternion.py) against its natural-language specification.

The embedding uses exact rationals (ℚ) for the floating-point scalars and
`Matrix (Fin 4) (Fin 4) ℚ` for the 4×4 numpy arrays.  Python exceptions are
modelled with `Except PyError`; each `PyError` constructor names the kind of
exception the corresponding line of Python raises.  Geometric helper types
(Point, Vector, Normal, BBox) and the numeric helpers `EPS`, `ne_unity` and
`Lerp` live in modules (src/core/geometry.py, src/core/pytracer.py) that are
not part of the sources; those are modelled from the specification and are
marked as such in their doc comments.
-/

/-- Kinds of Python exception raised by the modelled code paths:
`typeError` for `raise TypeError`, `linAlgError` for `numpy.linalg.LinAlgError`
raised by `np.linalg.inv` on a singular matrix, `nameError` for reading an
unbound name, `attrError` for reading an attribute that was never stored. -/
inductive PyError where
  | typeError
  | linAlgError
  | nameError
  | attrError
deriving DecidableEq, Repr

/-- Modelled from the spec: the numeric tolerance constant `EPS` from the
missing module src/core/pytracer.py ("within tolerance `EPS`"). -/
def EPS : ℚ := 1 / 100000

/-- Modelled from the spec: `ne_unity(x)` from the missing module
src/core/pytracer.py — true when `x` differs from 1 beyond the tolerance. -/
def ne_unity (x : ℚ) : Bool :=
  decide (x < 1 - EPS ∨ 1 + EPS < x)

/-- Modelled from the spec: `Lerp(t, a, b)` from the missing module
src/core/pytracer.py — linear interpolation `(1-t)*a + t*b`. -/
def Lerp (t a b : ℚ) : ℚ := (1 - t) * a + t * b

/-- State of `Transform`: the 4×4 matrix `m` and its stored companion `mInv`
(transform.py lines 21–43).  The constructor paths that build these fields
are modelled separately by `Transform.init`. -/
structure Transform where
  m : Matrix (Fin 4) (Fin 4) ℚ
  mInv : Matrix (Fin 4) (Fin 4) ℚ
deriving DecidableEq

/-- Constructor `Transform.scale(x, y, z)` (transform.py lines 112–124): diagonal matrix
with the reciprocals stored as the inverse. -/
def Transform.scale (x y z : ℚ) : Transform :=
  ⟨Matrix.of ![![x, 0, 0, 0], ![0, y, 0, 0], ![0, 0, z, 0], ![0, 0, 0, 1]],
   Matrix.of ![![1/x, 0, 0, 0], ![0, 1/y, 0, 0], ![0, 0, 1/z, 0], ![0, 0, 0, 1]]⟩

/-- Constructor `Transform.translate(delta)` (transform.py lines 98–110). -/
def Transform.translate (dx dy dz : ℚ) : Transform :=
  ⟨Matrix.of ![![1, 0, 0, dx], ![0, 1, 0, dy], ![0, 0, 1, dz], ![0, 0, 0, 1]],
   Matrix.of ![![1, 0, 0, -dx], ![0, 1, 0, -dy], ![0, 0, 1, -dz], ![0, 0, 0, 1]]⟩

/-- Method `Transform.inverse` (transform.py line 230–234): swaps `m` and `mInv`. -/
def Transform.inverse (t : Transform) : Transform := ⟨t.mInv, t.m⟩

/-- Method `Transform.has_scale` (transform.py lines 239–242): tests `ne_unity` of
the squares of the three diagonal entries of `m` only. -/
def Transform.has_scale (t : Transform) : Bool :=
  ne_unity (t.m 0 0 * t.m 0 0) || ne_unity (t.m 1 1 * t.m 1 1) ||
    ne_unity (t.m 2 2 * t.m 2 2)

/-- Row `i` of `m[0:4,0:3].dot(p) + m[0:4,3]` — the homogeneous image of a
point `p` (transform.py line 57). -/
def hrow (t : Transform) (p : Fin 3 → ℚ) (i : Fin 4) : ℚ :=
  t.m i 0 * p 0 + t.m i 1 * p 1 + t.m i 2 * p 2 + t.m i 3

/-- Row `i` of `m[0:3,0:3].dot(v)` — the linear image of a vector `v`
(transform.py line 64). -/
def lrow (t : Transform) (v : Fin 3 → ℚ) (i : Fin 4) : ℚ :=
  t.m i 0 * v 0 + t.m i 1 * v 1 + t.m i 2 * v 2

/-- Application of `Transform.__call__` to a Point (transform.py lines 56–61): homogeneous
transform by `m`, with a perspective divide when `ne_unity(res[3])`. -/
def applyPoint (t : Transform) (p : Fin 3 → ℚ) : Fin 3 → ℚ :=
  if ne_unity (hrow t p 3) then
    ![hrow t p 0 / hrow t p 3, hrow t p 1 / hrow t p 3, hrow t p 2 / hrow t p 3]
  else
    ![hrow t p 0, hrow t p 1, hrow t p 2]

/-- Application of `Transform.__call__` to a Vector (transform.py lines 63–65): linear part
of `m` only. -/
def applyVector (t : Transform) (v : Fin 3 → ℚ) : Fin 3 → ℚ :=
  ![lrow t v 0, lrow t v 1, lrow t v 2]

/-- Column-combination `mInv[0:3,0:3].T.dot(n)` at index `j` — entry `j` of
the image of a normal (transform.py line 69). -/
def ncol (t : Transform) (n : Fin 3 → ℚ) (j : Fin 4) : ℚ :=
  t.mInv 0 j * n 0 + t.mInv 1 j * n 1 + t.mInv 2 j * n 2

/-- Application of `Transform.__call__` to a Normal (transform.py lines 67–70): the stored
`mInv`, restricted to its upper-left 3×3 block and transposed, applied to the
components of `n`; no translation and no renormalization. -/
def applyNormal (t : Transform) (n : Fin 3 → ℚ) : Fin 3 → ℚ :=
  ![ncol t n 0, ncol t n 1, ncol t n 2]

/-- Axis-aligned bounding box: min and max corners.  Modelled from the spec:
the `BBox` class lives in the missing module src/core/geometry.py, which the
spec requires to expose "accessible min/max corners and a union operation". -/
structure BBox where
  pMin : Fin 3 → ℚ
  pMax : Fin 3 → ℚ
deriving DecidableEq

/-- Modelled from the spec: a default-constructed `BBox()` from the missing
geometry module; its corners are taken as the origin. -/
def BBox.empty : BBox := ⟨fun _ => 0, fun _ => 0⟩

/-- Modelled from the spec: the `union` operation of the missing geometry
module — componentwise min of the min corners and max of the max corners. -/
def BBox.union (a b : BBox) : BBox :=
  ⟨fun i => min (a.pMin i) (b.pMin i), fun i => max (a.pMax i) (b.pMax i)⟩

/-- Membership of a point in an axis-aligned box: between the two corners
componentwise. -/
def inBox (b : BBox) (p : Fin 3 → ℚ) : Bool :=
  decide (b.pMin 0 ≤ p 0 ∧ p 0 ≤ b.pMax 0 ∧ b.pMin 1 ≤ p 1 ∧ p 1 ≤ b.pMax 1 ∧
          b.pMin 2 ≤ p 2 ∧ p 2 ≤ b.pMax 2)

/-- Application of `Transform.__call__` to a BBox (transform.py lines 78–88): transforms the
min corner as a Point and the three edge vectors as Vectors, and sets the new
max corner to the transformed min corner plus the sum of the transformed
edges. -/
def applyBBox (t : Transform) (b : BBox) : BBox :=
  ⟨applyPoint t b.pMin,
   fun i => applyPoint t b.pMin i +
     (applyVector t ![b.pMax 0 - b.pMin 0, 0, 0] i +
      applyVector t ![0, b.pMax 1 - b.pMin 1, 0] i +
      applyVector t ![0, 0, b.pMax 2 - b.pMin 2] i)⟩

/-- Upper-left 3×3 block of a 4×4 matrix. -/
def ulBlock (A : Matrix (Fin 4) (Fin 4) ℚ) : Matrix (Fin 3) (Fin 3) ℚ :=
  Matrix.of ![![A 0 0, A 0 1, A 0 2], ![A 1 0, A 1 1, A 1 2], ![A 2 0, A 2 1, A 2 2]]

/-- A freshly constructed `Transform` as the raw pair of numpy arrays it
stores; used to model the constructor paths, where the argument arrays are of
unchecked shape (transform.py lines 21–35).  A nested list of rationals
stands for a numpy array. -/
structure RawTransform where
  m : List (List ℚ)
  mInv : List (List ℚ)
deriving DecidableEq

/-- The check `np.shape(m) == (4,4)` on a nested list. -/
def isShape4x4 (m : List (List ℚ)) : Bool :=
  m.length = 4 && m.all (fun r => r.length = 4)

/-- Read a nested list as a 4×4 matrix (entries default to 0 out of range). -/
def toMat4 (m : List (List ℚ)) : Matrix (Fin 4) (Fin 4) ℚ :=
  Matrix.of fun i j => ((m.getD i []).getD j 0)

/-- Write a 4×4 matrix back as a nested list. -/
def matToList (A : Matrix (Fin 4) (Fin 4) ℚ) : List (List ℚ) :=
  List.ofFn fun i : Fin 4 => List.ofFn fun j : Fin 4 => A i j

/-- External `np.linalg.inv` (external dependency): raises `LinAlgError` on a singular
matrix, otherwise returns the matrix inverse, computed here as
`det⁻¹ • adjugate`. -/
def npLinalgInv (A : Matrix (Fin 4) (Fin 4) ℚ) :
    Except PyError (Matrix (Fin 4) (Fin 4) ℚ) :=
  if A.det = 0 then .error .linAlgError else .ok (A.det⁻¹ • A.adjugate)

/-- Constructor `Transform.__init__` (transform.py lines 21–35).  Branches exactly as the
source: `m is None` yields the identity pair (whatever `mInv` is); both
supplied yields the copied pair with no shape or consistency check; `m` alone
is shape-checked (`raise TypeError`) and then inverted with `np.linalg.inv`. -/
def Transform.init (mo : Option (List (List ℚ))) (mInvo : Option (List (List ℚ))) :
    Except PyError RawTransform :=
  match mo, mInvo with
  | none, _ => .ok ⟨matToList 1, matToList 1⟩
  | some m, some mInv => .ok ⟨m, mInv⟩
  | some m, none =>
    if !(isShape4x4 m) then .error .typeError
    else
      match npLinalgInv (toMat4 m) with
      | .error e => .error e
      | .ok inv => .ok ⟨m, matToList inv⟩

/-- External `np.quaternion` type: component order: `np.quaternion(w, x, y, z)`, with named
attributes `w, x, y, z` (external dependency of quaternion.py). -/
structure Quat where
  w : ℚ
  x : ℚ
  y : ℚ
  z : ℚ
deriving DecidableEq

/-- Function `quaternion.toTransform` (quaternion.py lines 24–30).  The source binds
`x, y, z, w = q.w, q.x, q.y, q.z`, builds a 3×3 numpy array from them and
passes it to the `Transform` constructor with no inverse. -/
def toTransform (q : Quat) : Except PyError RawTransform :=
  Transform.init
    (some [[1 - 2*(q.x*q.x + q.y*q.y), 2*(q.w*q.x + q.y*q.z), 2*(q.w*q.y - q.x*q.z)],
           [2*(q.w*q.x - q.y*q.z), 1 - 2*(q.w*q.w + q.y*q.y), 2*(q.x*q.y + q.w*q.z)],
           [2*(q.w*q.y + q.x*q.z), 2*(q.x*q.y - q.w*q.z), 1 - 2*(q.w*q.w + q.x*q.x)]])
    none

/-- State of `AnimatedTransform`: the attributes `__init__` stores (transform.py
lines 249–257).  The decomposition triples computed on lines 255–257 are
bound to a local variable and never stored on the object, so they are not
part of the state. -/
structure AnimatedTransform where
  startTime : ℚ
  endTime : ℚ
  startTransform : Transform
  endTransform : Transform
  animated : Bool
deriving DecidableEq

/-- Constructor `AnimatedTransform.__init__` (transform.py lines 249–257): stores the
four arguments unchanged — there is no validation of the time range — and
sets `animated = (t1 != t2)`, where `Transform.__ne__` compares only the `m`
matrices (transform.py lines 52–53). -/
def mkAnimatedTransform (t1 : Transform) (tm1 : ℚ) (t2 : Transform) (tm2 : ℚ) :
    AnimatedTransform :=
  ⟨tm1, tm2, t1, t2, decide (t1.m ≠ t2.m)⟩

/-- Method `AnimatedTransform.interpolate` (transform.py lines 339–353).  The first
two branches return the keyframe transforms.  The third branch reads
`self.T`, an attribute `__init__` never stored (its decomposition results
went into a discarded local), so it raises `AttributeError`; the function
body also ends without a `return` statement. -/
def AnimatedTransform.interpolate (a : AnimatedTransform) (time : ℚ) :
    Except PyError Transform :=
  if a.animated = false ∨ time ≤ a.startTime then .ok a.startTransform
  else if a.endTime ≤ time then .ok a.endTransform
  else .error .attrError

/-- One iteration of the `motion_bounds` sampling loop (transform.py lines
302–307): interpolate at `Lerp(i/127, startTime, endTime)`, optionally
invert, transform the box and union it into the accumulator. -/
def motionStep (a : AnimatedTransform) (b : BBox) (useInv : Bool) (i : ℕ)
    (ret : BBox) : Except PyError BBox :=
  match a.interpolate (Lerp ((i : ℚ) * (1/127)) a.startTime a.endTime) with
  | .error e => .error e
  | .ok t => .ok (ret.union (applyBBox (if useInv then t.inverse else t) b))

/-- The `for i in range(128)` loop of `motion_bounds`, with index `i` and
remaining iteration count as fuel. -/
def motionLoop (a : AnimatedTransform) (b : BBox) (useInv : Bool) :
    ℕ → ℕ → BBox → Except PyError BBox
  | _, 0, ret => .ok ret
  | i, fuel + 1, ret =>
    match motionStep a b useInv i ret with
    | .error e => .error e
    | .ok ret2 => motionLoop a b useInv (i + 1) fuel ret2

/-- Method `AnimatedTransform.motion_bounds` (transform.py lines 296–308).  In the
non-animated branch the source reads the unbound bare name `startTransform`
(not `self.startTransform`), which raises `NameError`; the expression around
it would apply `inverse()` unconditionally.  The animated branch runs the
128-step sampling loop. -/
def AnimatedTransform.motion_bounds (a : AnimatedTransform) (b : BBox)
    (useInv : Bool) : Except PyError BBox :=
  if a.animated = false then .error .nameError
  else motionLoop a b useInv 0 128 BBox.empty

/-- The identity transform, `Transform()` with no arguments. -/
def idT : Transform := ⟨1, 1⟩

@[simp] theorem mkAT_startTime (t1 : Transform) (tm1 : ℚ) (t2 : Transform) (tm2 : ℚ) :
    (mkAnimatedTransform t1 tm1 t2 tm2).startTime = tm1 := rfl

@[simp] theorem mkAT_endTime (t1 : Transform) (tm1 : ℚ) (t2 : Transform) (tm2 : ℚ) :
    (mkAnimatedTransform t1 tm1 t2 tm2).endTime = tm2 := rfl

@[simp] theorem mkAT_startTransform (t1 : Transform) (tm1 : ℚ) (t2 : Transform) (tm2 : ℚ) :
    (mkAnimatedTransform t1 tm1 t2 tm2).startTransform = t1 := rfl

@[simp] theorem mkAT_endTransform (t1 : Transform) (tm1 : ℚ) (t2 : Transform) (tm2 : ℚ) :
    (mkAnimatedTransform t1 tm1 t2 tm2).endTransform = t2 := rfl

/-- Rotation by 90° about the z axis as a concrete `Transform` value: the
matrix of `Transform.rotate_z(90)` (transform.py lines 149–158), whose
sin/cos entries are exactly 0 and ±1, with its transpose stored as inverse. -/
def rotT : Transform :=
  ⟨Matrix.of ![![0, -1, 0, 0], ![1, 0, 0, 0], ![0, 0, 1, 0], ![0, 0, 0, 1]],
   Matrix.of ![![0, 1, 0, 0], ![-1, 0, 0, 0], ![0, 0, 1, 0], ![0, 0, 0, 1]]⟩

/-- The unit box `[0,1]³`. -/
def unitBox : BBox := ⟨![0, 0, 0], ![1, 1, 1]⟩

/-- C10: the two-argument constructor path stores any pair of arrays with no
shape check and no consistency check; in particular it accepts the 1×1 pair
`([[1]], [[2]])`, whose stored `mInv` is not the inverse of its `m`. -/
theorem C10_pair_path_unchecked :
    (∀ m mInv : List (List ℚ), Transform.init (some m) (some mInv) = .ok ⟨m, mInv⟩)
    ∧ Transform.init (some [[1]]) (some [[2]]) = .ok ⟨[[1]], [[2]]⟩
    ∧ toMat4 [[2]] * toMat4 [[1]] ≠ 1 := by
  refine ⟨fun m mInv => rfl, rfl, fun h => ?_⟩
  have h11 := congrFun (congrFun h 1) 1
  simp [toMat4, Matrix.mul_apply, Fin.sum_univ_four, Matrix.one_apply] at h11

/-- C7: `toTransform` passes a 3×3 numpy array to the inverse-computing path
of the `Transform` constructor, which requires a 4×4 matrix and raises
`TypeError`; consequently `fromTransform(toTransform(q))` never produces a
quaternion for any `q`. -/
theorem C7_toTransform_raises (q : Quat) :
    toTransform q = .error .typeError := rfl

/-- C3 counterexample: constructing an `AnimatedTransform` with
`tm1 = 1 ≥ 0 = tm2` does not fail — the constructor stores the reversed
times unchanged, refuting the claimed `InvalidTimeRange` error. -/
theorem C3_counterexample :
    (mkAnimatedTransform idT 1 idT 0).startTime = 1 ∧
    (mkAnimatedTransform idT 1 idT 0).endTime = 0 ∧
    (mkAnimatedTransform idT 1 idT 0).endTime <
      (mkAnimatedTransform idT 1 idT 0).startTime := by
  refine ⟨rfl, rfl, by norm_num [mkAnimatedTransform]⟩

/-- C3 amended: `AnimatedTransform.__init__` performs no time-range
validation at all — for every pair of times (including `tm1 ≥ tm2`) it
succeeds, storing the four arguments unchanged and setting `animated` to
false exactly when the two transforms have equal `m` matrices. -/
theorem C3_no_time_validation (t1 : Transform) (tm1 : ℚ) (t2 : Transform) (tm2 : ℚ) :
    (mkAnimatedTransform t1 tm1 t2 tm2).startTime = tm1 ∧
    (mkAnimatedTransform t1 tm1 t2 tm2).endTime = tm2 ∧
    (mkAnimatedTransform t1 tm1 t2 tm2).startTransform = t1 ∧
    (mkAnimatedTransform t1 tm1 t2 tm2).endTransform = t2 ∧
    ((mkAnimatedTransform t1 tm1 t2 tm2).animated = false ↔ t1.m = t2.m) := by
  refine ⟨rfl, rfl, rfl, rfl, ?_⟩
  simp [mkAnimatedTransform]

/-- C5: `interpolate` returns `startTransform` when the instance is not
animated or the query time is at most `startTime`, and returns a transform
with `endTransform`'s matrix when the query time is at least `endTime`
(for a non-animated instance that branch also returns `startTransform`,
which has the same `m` as `endTransform` by definition of `animated`). -/
theorem C5_interpolate_endpoints (t1 : Transform) (tm1 : ℚ) (t2 : Transform)
    (tm2 : ℚ) (time : ℚ) :
    ((mkAnimatedTransform t1 tm1 t2 tm2).animated = false ∨ time ≤ tm1 →
      (mkAnimatedTransform t1 tm1 t2 tm2).interpolate time = .ok t1)
    ∧ (tm1 < tm2 → tm2 ≤ time →
      ∃ r, (mkAnimatedTransform t1 tm1 t2 tm2).interpolate time = .ok r ∧
        r.m = t2.m) := by
  constructor
  · intro h
    unfold AnimatedTransform.interpolate
    simp only [mkAT_startTime, mkAT_startTransform]
    rw [if_pos h]
  · intro hlt hge
    by_cases hA : (mkAnimatedTransform t1 tm1 t2 tm2).animated = false
    · have hm : t1.m = t2.m := by
        simpa [mkAnimatedTransform] using hA
      refine ⟨t1, ?_, hm⟩
      unfold AnimatedTransform.interpolate
      simp only [mkAT_startTime, mkAT_startTransform]
      rw [if_pos (Or.inl hA)]
    · refine ⟨t2, ?_, rfl⟩
      unfold AnimatedTransform.interpolate
      simp only [mkAT_startTime, mkAT_endTime, mkAT_endTransform]
      rw [if_neg, if_pos hge]
      rintro (h | h)
      · exact hA h
      · exact absurd (le_trans hge h) (not_le.mpr hlt)

/-- C5 witness: concrete endpoint evaluations for the animated instance
built from the identity and `scale(2,1,1)` over the interval `[0, 1]`. -/
theorem C5_interpolate_endpoints_witness :
    (mkAnimatedTransform idT 0 (Transform.scale 2 1 1) 1).interpolate 0 = .ok idT ∧
    ∃ r, (mkAnimatedTransform idT 0 (Transform.scale 2 1 1) 1).interpolate 2 = .ok r ∧
      r.m = (Transform.scale 2 1 1).m :=
  ⟨(C5_interpolate_endpoints idT 0 (Transform.scale 2 1 1) 1 0).1 (Or.inr (by norm_num)),
   (C5_interpolate_endpoints idT 0 (Transform.scale 2 1 1) 1 2).2 (by norm_num) (by norm_num)⟩

/-- C6: for an animated instance and a query time strictly inside the time
interval, `interpolate` does not return the claimed translate·rotate·scale
composition: it raises `AttributeError`, because the decomposition results
were bound to a discarded local in `__init__` and the body has no `return`. -/
theorem C6_interpolate_midrange_raises (t1 : Transform) (tm1 : ℚ) (t2 : Transform)
    (tm2 : ℚ) (time : ℚ) (hm : t1.m ≠ t2.m) (h1 : tm1 < time) (h2 : time < tm2) :
    (mkAnimatedTransform t1 tm1 t2 tm2).interpolate time = .error .attrError := by
  have hA : (mkAnimatedTransform t1 tm1 t2 tm2).animated = true := by
    simp [mkAnimatedTransform, hm]
  unfold AnimatedTransform.interpolate
  simp only [mkAT_startTime, mkAT_endTime]
  rw [if_neg, if_neg (not_le.mpr h2)]
  rintro (h | h)
  · rw [hA] at h
    exact Bool.noConfusion h
  · exact absurd h (not_le.mpr h1)

/-- C6 witness: the midpoint query on the animated instance built from the
identity and `scale(2,1,1)` over `[0, 1]` raises. -/
theorem C6_interpolate_midrange_raises_witness :
    (mkAnimatedTransform idT 0 (Transform.scale 2 1 1) 1).interpolate (1/2) =
      .error .attrError :=
  C6_interpolate_midrange_raises idT 0 (Transform.scale 2 1 1) 1 (1/2)
    (fun h => by
      have h00 := congrFun (congrFun h 0) 0
      simp [idT, Transform.scale, Matrix.one_apply] at h00)
    (by norm_num) (by norm_num)

/-- C8 counterexample: the 90° z-rotation is a pure rotation — its linear
part is orthogonal (`mᵀ·m = 1` on the stored matrix), so every axis scale
factor is exactly 1 — yet `has_scale` returns true, because it tests only
the diagonal entries `m[0][0]², m[1][1]², m[2][2]²` and the first two are 0. -/
theorem C8_counterexample :
    rotT.mInv * rotT.m = 1 ∧ rotT.mInv = rotT.m.transpose ∧
    rotT.has_scale = true := by
  refine ⟨?_, ?_, ?_⟩
  · ext i j
    fin_cases i <;> fin_cases j <;>
      simp [rotT, Matrix.mul_apply, Fin.sum_univ_four, Matrix.one_apply,
        Matrix.vecHead, Matrix.vecTail]
  · ext i j
    fin_cases i <;> fin_cases j <;>
      simp [rotT, Matrix.transpose_apply, Matrix.vecHead, Matrix.vecTail]
  · norm_num [Transform.has_scale, rotT, ne_unity, EPS,
      Matrix.vecHead, Matrix.vecTail]

/-- C8 amended: `has_scale` tests `ne_unity` of the squares of the three
diagonal entries of `m` only; on the axis-aligned `scale(x,y,z)` transform
this is the claimed test of the axis factors, but on a general transform
(e.g. a pure rotation) the diagonal entries are not the axis scale factors,
so `has_scale` can return true for a pure rotation. -/
theorem C8_has_scale_diagonal (x y z : ℚ) :
    (Transform.scale x y z).has_scale =
      (ne_unity (x * x) || ne_unity (y * y) || ne_unity (z * z)) := rfl

/-- The 4×4 identity matrix as a nested list. -/
def idL : List (List ℚ) := [[1,0,0,0],[0,1,0,0],[0,0,1,0],[0,0,0,1]]

/-- C4: the matrix-only constructor path fails on a non-4×4 array
(`raise TypeError`), fails on a singular 4×4 matrix (`np.linalg.inv` raises
`LinAlgError`), and for an invertible 4×4 matrix succeeds, storing exactly
the matrix inverse of `m` as `mInv`. -/
theorem C4_fromMatrix (m : List (List ℚ)) :
    (isShape4x4 m = false → Transform.init (some m) none = .error .typeError)
    ∧ (isShape4x4 m = true → (toMat4 m).det = 0 →
        Transform.init (some m) none = .error .linAlgError)
    ∧ (isShape4x4 m = true → (toMat4 m).det ≠ 0 →
        Transform.init (some m) none = .ok ⟨m, matToList (toMat4 m)⁻¹⟩) := by
  refine ⟨?_, ?_, ?_⟩
  · intro h
    simp [Transform.init, h]
  · intro h hd
    simp [Transform.init, h, npLinalgInv, hd]
  · intro h hd
    simp only [Transform.init, h, Bool.not_true, Bool.false_eq_true, if_false,
      npLinalgInv, if_neg hd]
    rw [Matrix.inv_def, Ring.inverse_eq_inv]

/-- C4 witness: the identity list is 4×4 and invertible, and the constructor
stores its inverse. -/
theorem C4_fromMatrix_witness :
    Transform.init (some idL) none = .ok ⟨idL, matToList (toMat4 idL)⁻¹⟩ :=
  (C4_fromMatrix idL).2.2 rfl (by
    rw [show toMat4 idL = 1 by decide, Matrix.det_one]
    norm_num)

/-- C1: applying a `Transform` whose stored `mInv` is a genuine inverse of
`m` to a Normal multiplies the components by the upper-left 3×3 block of the
inverse transpose of `m`, with no translation and no renormalization; in
particular `scale(2,1,1)` maps the Normal `(1,0,0)` to `(1/2, 0, 0)`. -/
theorem C1_normal_inverse_transpose :
    (∀ (t : Transform) (n : Fin 3 → ℚ), t.m * t.mInv = 1 →
      applyNormal t n = (ulBlock ((t.m)⁻¹).transpose).mulVec n)
    ∧ applyNormal (Transform.scale 2 1 1) ![1, 0, 0] = ![1/2, 0, 0] := by
  constructor
  · intro t n h
    have hinv : t.m⁻¹ = t.mInv := Matrix.inv_eq_right_inv h
    rw [hinv]
    funext i
    fin_cases i <;>
      simp [applyNormal, ncol, ulBlock, Matrix.mulVec, Matrix.dotProduct,
        Fin.sum_univ_three, Matrix.transpose_apply, Matrix.vecHead,
        Matrix.vecTail]
  · funext i
    fin_cases i <;>
      norm_num [applyNormal, ncol, Transform.scale, Matrix.vecHead,
        Matrix.vecTail]

/-- C1 witness: the general statement instantiated at `scale(2,1,1)` and the
Normal `(1,0,0)`, whose stored pair is a genuine inverse pair. -/
theorem C1_normal_inverse_transpose_witness :
    applyNormal (Transform.scale 2 1 1) ![1, 0, 0] =
      (ulBlock (((Transform.scale 2 1 1).m)⁻¹).transpose).mulVec ![1, 0, 0] :=
  C1_normal_inverse_transpose.1 (Transform.scale 2 1 1) ![1, 0, 0] (by
    ext i j
    fin_cases i <;> fin_cases j <;>
      norm_num [Transform.scale, Matrix.mul_apply, Fin.sum_univ_four,
        Matrix.one_apply, Matrix.vecHead, Matrix.vecTail] <;> decide)

/-- C2 counterexample: `rotT` is an honest transform (its stored pair are
mutual inverses), the corner point `(0,1,0)` lies in the unit box, but its
image under `rotT` is not contained in the box returned by the BBox
transform — the min-corner-plus-edges recipe is not conservative under
rotation. -/
theorem C2_counterexample :
    rotT.m * rotT.mInv = 1 ∧ inBox unitBox ![0, 1, 0] = true ∧
    inBox (applyBBox rotT unitBox) (applyPoint rotT ![0, 1, 0]) = false := by
  refine ⟨?_, ?_, ?_⟩
  · ext i j
    fin_cases i <;> fin_cases j <;>
      simp [rotT, Matrix.mul_apply, Fin.sum_univ_four, Matrix.one_apply,
        Matrix.vecHead, Matrix.vecTail]
  · norm_num [inBox, unitBox, Matrix.vecHead, Matrix.vecTail]
  · norm_num [inBox, applyBBox, applyPoint, applyVector, hrow, lrow, ne_unity,
      EPS, rotT, unitBox, Matrix.vecHead, Matrix.vecTail]

lemma hrow_mono (t : Transform) (p q : Fin 3 → ℚ) (i : Fin 4)
    (h0 : 0 ≤ t.m i 0) (h1 : 0 ≤ t.m i 1) (h2 : 0 ≤ t.m i 2)
    (hp0 : p 0 ≤ q 0) (hp1 : p 1 ≤ q 1) (hp2 : p 2 ≤ q 2) :
    hrow t p i ≤ hrow t q i := by
  unfold hrow
  have m0 := mul_le_mul_of_nonneg_left hp0 h0
  have m1 := mul_le_mul_of_nonneg_left hp1 h1
  have m2 := mul_le_mul_of_nonneg_left hp2 h2
  linarith

lemma hrow_affine (t : Transform) (p : Fin 3 → ℚ)
    (h30 : t.m 3 0 = 0) (h31 : t.m 3 1 = 0) (h32 : t.m 3 2 = 0)
    (h33 : t.m 3 3 = 1) : hrow t p 3 = 1 := by
  unfold hrow
  rw [h30, h31, h32, h33]
  ring

lemma applyPoint_affine (t : Transform) (p : Fin 3 → ℚ) (h : hrow t p 3 = 1) :
    applyPoint t p = ![hrow t p 0, hrow t p 1, hrow t p 2] := by
  unfold applyPoint
  rw [h]
  norm_num [ne_unity, EPS]

lemma lrow_edgeX (t : Transform) (d : ℚ) (i : Fin 4) :
    lrow t ![d, 0, 0] i = t.m i 0 * d := by
  simp [lrow, Matrix.vecHead, Matrix.vecTail]

lemma lrow_edgeY (t : Transform) (d : ℚ) (i : Fin 4) :
    lrow t ![0, d, 0] i = t.m i 1 * d := by
  simp [lrow, Matrix.vecHead, Matrix.vecTail]

lemma lrow_edgeZ (t : Transform) (d : ℚ) (i : Fin 4) :
    lrow t ![0, 0, d] i = t.m i 2 * d := by
  simp [lrow, Matrix.vecHead, Matrix.vecTail]

lemma bbox_pmax_eq (t : Transform) (b : BBox) (i : Fin 4) :
    hrow t b.pMin i + (lrow t ![b.pMax 0 - b.pMin 0, 0, 0] i +
      lrow t ![0, b.pMax 1 - b.pMin 1, 0] i +
      lrow t ![0, 0, b.pMax 2 - b.pMin 2] i) = hrow t b.pMax i := by
  rw [lrow_edgeX, lrow_edgeY, lrow_edgeZ]
  unfold hrow
  ring

/-- C2 amended: the box returned by the BBox transform has corners
`t(pMin)` and `t(pMin) + t(x) + t(y) + t(z)`; it contains the image of every
point of the box when `t` is affine and the upper-left 3×3 block of `t.m`
has no negative entry (axis-aligned scales and translations), which is the
sense in which the recipe is conservative — for general affine `t`
(rotations included) the containment fails. -/
theorem C2_bbox_cover_nonneg (t : Transform) (b : BBox) (p : Fin 3 → ℚ)
    (h30 : t.m 3 0 = 0) (h31 : t.m 3 1 = 0) (h32 : t.m 3 2 = 0)
    (h33 : t.m 3 3 = 1)
    (hpos : ∀ i j : Fin 4, i ≠ 3 → j ≠ 3 → 0 ≤ t.m i j)
    (hin : inBox b p = true) :
    inBox (applyBBox t b) (applyPoint t p) = true := by
  obtain ⟨i1, i2, i3, i4, i5, i6⟩ := of_decide_eq_true hin
  have hP := applyPoint_affine t p (hrow_affine t p h30 h31 h32 h33)
  have hMin := applyPoint_affine t b.pMin (hrow_affine t b.pMin h30 h31 h32 h33)
  have lo : ∀ r : Fin 4, r ≠ 3 → hrow t b.pMin r ≤ hrow t p r := fun r hr =>
    hrow_mono t b.pMin p r (hpos r 0 hr (by decide)) (hpos r 1 hr (by decide))
      (hpos r 2 hr (by decide)) i1 i3 i5
  have hi : ∀ r : Fin 4, r ≠ 3 → hrow t p r ≤ hrow t b.pMax r := fun r hr =>
    hrow_mono t p b.pMax r (hpos r 0 hr (by decide)) (hpos r 1 hr (by decide))
      (hpos r 2 hr (by decide)) i2 i4 i6
  unfold inBox
  rw [decide_eq_true_eq]
  unfold applyBBox
  simp only [hP, hMin]
  refine ⟨?_, ?_, ?_, ?_, ?_, ?_⟩ <;>
    simp only [Matrix.cons_val_zero, Matrix.cons_val_one, Matrix.cons_val_two,
      Matrix.head_cons, Matrix.vecHead, Matrix.vecTail, Function.comp]
  · exact lo 0 (by decide)
  · calc hrow t p 0 ≤ hrow t b.pMax 0 := hi 0 (by decide)
      _ = _ := (bbox_pmax_eq t b 0).symm.trans (by
          simp [applyVector, Matrix.vecHead, Matrix.vecTail])
  · exact lo 1 (by decide)
  · calc hrow t p 1 ≤ hrow t b.pMax 1 := hi 1 (by decide)
      _ = _ := (bbox_pmax_eq t b 1).symm.trans (by
          simp [applyVector, Matrix.vecHead, Matrix.vecTail])
  · exact lo 2 (by decide)
  · calc hrow t p 2 ≤ hrow t b.pMax 2 := hi 2 (by decide)
      _ = _ := (bbox_pmax_eq t b 2).symm.trans (by
          simp [applyVector, Matrix.vecHead, Matrix.vecTail])

/-- C2 witness: the amended containment instantiated at `scale(2,1,1)`, the
unit box and an interior point. -/
theorem C2_bbox_cover_nonneg_witness :
    inBox (applyBBox (Transform.scale 2 1 1) unitBox)
      (applyPoint (Transform.scale 2 1 1) ![1/2, 1/2, 1/2]) = true :=
  C2_bbox_cover_nonneg (Transform.scale 2 1 1) unitBox ![1/2, 1/2, 1/2]
    (by norm_num [Transform.scale, Matrix.vecHead, Matrix.vecTail])
    (by norm_num [Transform.scale, Matrix.vecHead, Matrix.vecTail])
    (by norm_num [Transform.scale, Matrix.vecHead, Matrix.vecTail])
    (by norm_num [Transform.scale, Matrix.vecHead, Matrix.vecTail])
    (by
      intro i j hi3 hj3
      fin_cases i <;> fin_cases j <;>
        first
          | exact absurd rfl hi3
          | exact absurd rfl hj3
          | norm_num [Transform.scale, Matrix.vecHead, Matrix.vecTail])
    (by norm_num [inBox, unitBox, Matrix.vecHead, Matrix.vecTail])

lemma motionLoop_succ (a : AnimatedTransform) (b : BBox) (u : Bool)
    (i fuel : ℕ) (ret : BBox) :
    motionLoop a b u i (fuel + 1) ret =
      match motionStep a b u i ret with
      | .error e => .error e
      | .ok ret2 => motionLoop a b u (i + 1) fuel ret2 := rfl

lemma motionLoop_ok (a : AnimatedTransform) (b : BBox) (u : Bool) (i fuel : ℕ)
    (ret ret2 : BBox) (h : motionStep a b u i ret = .ok ret2) :
    motionLoop a b u i (fuel + 1) ret = motionLoop a b u (i + 1) fuel ret2 := by
  rw [motionLoop_succ, h]

lemma motionLoop_error (a : AnimatedTransform) (b : BBox) (u : Bool)
    (i fuel : ℕ) (ret : BBox) (e : PyError)
    (h : motionStep a b u i ret = .error e) :
    motionLoop a b u i (fuel + 1) ret = .error e := by
  rw [motionLoop_succ, h]

/-- C9 counterexample: on a non-animated instance `motion_bounds` does not
return the direct application of `startTransform` to the box (with
`useInv = false`, no inversion): the source reads the unbound bare name
`startTransform` and raises `NameError`, and the surrounding expression
would invert unconditionally. -/
theorem C9_counterexample :
    (mkAnimatedTransform idT 0 idT 1).motion_bounds unitBox false =
      .error .nameError ∧
    (mkAnimatedTransform idT 0 idT 1).motion_bounds unitBox false ≠
      .ok (applyBBox (mkAnimatedTransform idT 0 idT 1).startTransform unitBox) := by
  have hA : (mkAnimatedTransform idT 0 idT 1).animated = false := by
    simp [mkAnimatedTransform]
  have h1 : (mkAnimatedTransform idT 0 idT 1).motion_bounds unitBox false =
      .error .nameError := by
    unfold AnimatedTransform.motion_bounds
    rw [if_pos hA]
  exact ⟨h1, by rw [h1]; simp⟩

/-- C9 amended: `motion_bounds` never returns a box.  For a non-animated
instance it raises `NameError` (the source reads the bare name
`startTransform`, and its surrounding expression ignores `useInv` and would
invert unconditionally); for an animated instance with a forward time range
the sampling loop calls `interpolate` at the second sample time, which lies
strictly inside the interval, and that raises `AttributeError`. -/
theorem C9_motion_bounds_raises :
    (∀ (a : AnimatedTransform) (b : BBox) (u : Bool), a.animated = false →
      a.motion_bounds b u = .error .nameError)
    ∧ (∀ (a : AnimatedTransform) (b : BBox) (u : Bool), a.animated = true →
      a.startTime < a.endTime → a.motion_bounds b u = .error .attrError) := by
  constructor
  · intro a b u h
    unfold AnimatedTransform.motion_bounds
    rw [if_pos h]
  · intro a b u hA hlt
    have h0 : a.interpolate (Lerp (((0:ℕ):ℚ) * (1/127)) a.startTime a.endTime) =
        .ok a.startTransform := by
      rw [show Lerp (((0:ℕ):ℚ) * (1/127)) a.startTime a.endTime = a.startTime by
        push_cast [Lerp]; ring]
      unfold AnimatedTransform.interpolate
      rw [if_pos (Or.inr le_rfl)]
    have h1 : ∀ ret, motionStep a b u 1 ret = .error .attrError := by
      intro ret
      unfold motionStep
      rw [show Lerp (((1:ℕ):ℚ) * (1/127)) a.startTime a.endTime =
          a.startTime + (a.endTime - a.startTime) / 127 by
        push_cast [Lerp]; ring]
      have hc1 : ¬(a.animated = false ∨
          a.startTime + (a.endTime - a.startTime) / 127 ≤ a.startTime) := by
        rintro (hc | hc)
        · rw [hA] at hc
          exact Bool.noConfusion hc
        · linarith
      have hc2 : ¬(a.endTime ≤ a.startTime + (a.endTime - a.startTime) / 127) := by
        linarith
      unfold AnimatedTransform.interpolate
      rw [if_neg hc1, if_neg hc2]
    have hs0 : motionStep a b u 0 BBox.empty =
        .ok (BBox.empty.union
          (applyBBox (if u then a.startTransform.inverse else a.startTransform) b)) := by
      unfold motionStep
      rw [h0]
    unfold AnimatedTransform.motion_bounds
    rw [if_neg (by rw [hA]; exact Bool.noConfusion)]
    show motionLoop a b u 0 (127 + 1) BBox.empty = .error .attrError
    rw [motionLoop_ok a b u 0 127 BBox.empty _ hs0]
    show motionLoop a b u 1 (126 + 1) _ = .error .attrError
    rw [motionLoop_error a b u 1 126 _ _ (h1 _)]

/-- C9 witness: the animated-branch failure evaluated on the concrete
animated instance built from the identity and `scale(2,1,1)` over `[0,1]`. -/
theorem C9_motion_bounds_raises_witness :
    (mkAnimatedTransform idT 0 (Transform.scale 2 1 1) 1).motion_bounds
      unitBox false = .error .attrError :=
  C9_motion_bounds_raises.2 (mkAnimatedTransform idT 0 (Transform.scale 2 1 1) 1)
    unitBox false
    (by
      simp only [mkAnimatedTransform]
      rw [decide_eq_true_eq]
      intro h
      have h00 := congrFun (congrFun h 0) 0
      simp [idT, Transform.scale, Matrix.one_apply] at h00)
    (by norm_num)
